import Mathlib

/-!
Verification of the tool-call orchestration loop of
`blockchain_chatbot_mcp_v3.py` (blockchain-analytics-chatbot).

Python text is embedded as `List Char`.  The completion backend (Groq) and
the tool backend (the MCP session) are external collaborators; they are
modelled as oracles indexed by call number (the i-th call of a turn), which
covers every behaviour the backends can exhibit during one run.  `json.loads`
is a library function; it is modelled below by an executable JSON parser
faithful to Python's `json` module on ordinary inputs (raw control characters
rejected inside strings, `NaN`/`Infinity` accepted, duplicate object keys
resolved dict-style with the last value winning; numeric lexemes are kept raw
instead of being converted to int/float, and `\uXXXX` escapes are decoded
one at a time without surrogate pairing — no claim depends on either).
-/

/-- Python `str` values, embedded as lists of characters. -/
abbrev Str := List Char

/-- Message roles used in the chat transcript (`"system"`, `"user"`, `"assistant"`). -/
inductive Role where
  | system : Role
  | user : Role
  | assistant : Role
deriving DecidableEq, Repr

/-- One transcript entry: the Python dict `{"role": ..., "content": ...}`
(braces written out: \x7b"role": ..., "content": ...\x7d). -/
structure Msg where
  role : Role
  content : Str
deriving DecidableEq, Repr

/-- One discovered MCP tool, as cached in `self.available_tools`:
`name`, `description` and `input_schema`. -/
structure ToolDesc where
  name : Str
  description : Str

/-! ## Generic string helpers (Python `in` / `str.find` / `str.strip`) -/

/-- First index at which `needle` occurs in the text, as Python `str.find`
(also deciding the `in` operator).  `none` when absent (Python returns -1,
but the code only calls `find` after an `in` check succeeded). -/
def findSubstr (needle : Str) : Str → Option Nat
  | [] => if needle = [] then some 0 else none
  | c :: cs =>
    if needle.isPrefixOf (c :: cs) then some 0
    else (findSubstr needle cs).map (· + 1)

/-- Whitespace stripped by Python `str.strip()` (the ASCII cases). -/
def isPyWs (c : Char) : Bool :=
  c = ' ' || c = '\t' || c = '\n' || c = '\r' || c = '\x0b' || c = '\x0c'

/-- Python `str.strip()`: drop leading and trailing whitespace. -/
def pyStrip (s : Str) : Str :=
  ((s.dropWhile isPyWs).reverse.dropWhile isPyWs).reverse

/-! ## A model of `json.loads` -/

/-- Whitespace skipped between JSON tokens by `json.loads`. -/
def isJsonWs (c : Char) : Bool :=
  c = ' ' || c = '\t' || c = '\n' || c = '\r'

/-- Drop leading JSON whitespace. -/
def skipJsonWs : Str → Str
  | [] => []
  | c :: cs => if isJsonWs c then skipJsonWs cs else c :: cs

/-- Parsed JSON values.  Objects keep Python-dict member semantics: keys are
unique, a duplicate key keeps the first position with the last value. -/
inductive Json where
  | null : Json
  | bool : Bool → Json
  | num : Str → Json
  | str : Str → Json
  | arr : List Json → Json
  | obj : List (Str × Json) → Json
deriving Repr

/-- Python-dict member insertion: replace an existing key's value in place,
otherwise append the new member. -/
def insertMember : List (Str × Json) → Str → Json → List (Str × Json)
  | [], k, v => [(k, v)]
  | (k0, v0) :: rest, k, v =>
    if k0 = k then (k0, v) :: rest else (k0, v0) :: insertMember rest k v

/-- Python-dict lookup (`d[k]` minus the KeyError): first (unique) member
with the key.  `none` both for a missing key and for a non-object. -/
def objGet : Json → Str → Option Json
  | Json.obj members, k => lookupMember members k
  | _, _ => none
where
  lookupMember : List (Str × Json) → Str → Option Json
    | [], _ => none
    | (k0, v) :: rest, k => if k0 = k then some v else lookupMember rest k

/-- Value of a hex digit (`json.loads` accepts both cases in `\uXXXX`). -/
def hexVal (c : Char) : Option Nat :=
  if c.isDigit then some (c.toNat - 48)
  else if 'a' ≤ c && c ≤ 'f' then some (c.toNat - 87)
  else if 'A' ≤ c && c ≤ 'F' then some (c.toNat - 55)
  else none

/-- The single-character string escapes of JSON. -/
def escChar (c : Char) : Option Char :=
  if c = '"' then some '"'
  else if c = '\\' then some '\\'
  else if c = '/' then some '/'
  else if c = 'b' then some (Char.ofNat 8)
  else if c = 'f' then some (Char.ofNat 12)
  else if c = 'n' then some '\n'
  else if c = 'r' then some '\r'
  else if c = 't' then some '\t'
  else none

/-- Parse the body of a JSON string literal (opening quote already consumed):
the decoded characters and the rest of the input after the closing quote.
Strict mode as in `json.loads`: a raw control character or an unknown escape
is an error. -/
def parseJStringAux : Str → Option (Str × Str)
  | [] => none
  | '"' :: rest => some ([], rest)
  | '\\' :: 'u' :: h1 :: h2 :: h3 :: h4 :: rest => do
    let a ← hexVal h1
    let b ← hexVal h2
    let c ← hexVal h3
    let d ← hexVal h4
    let p ← parseJStringAux rest
    some (Char.ofNat (((a * 16 + b) * 16 + c) * 16 + d) :: p.1, p.2)
  | '\\' :: e :: rest => do
    let ch ← escChar e
    let p ← parseJStringAux rest
    some (ch :: p.1, p.2)
  | '\\' :: [] => none
  | c :: rest =>
    if c.toNat < 32 then none
    else (parseJStringAux rest).map (fun p => (c :: p.1, p.2))

/-- Longest leading run of decimal digits, and the rest. -/
def digitSpan (s : Str) : Str × Str :=
  (s.takeWhile Char.isDigit, s.dropWhile Char.isDigit)

/-- Integer part of a JSON number: `0`, or a nonzero digit then digits. -/
def parseIntDigits : Str → Option (Str × Str)
  | [] => none
  | c :: cs =>
    if c = '0' then some ([c], cs)
    else if c.isDigit then
      let t := digitSpan cs
      some (c :: t.1, t.2)
    else none

/-- Optional fraction part `.digits` of a JSON number (empty when absent). -/
def parseFrac : Str → Str × Str
  | '.' :: c :: cs =>
    if c.isDigit then
      let t := digitSpan (c :: cs)
      ('.' :: t.1, t.2)
    else ([], '.' :: c :: cs)
  | s => ([], s)

/-- Optional exponent part `[eE][+-]?digits` of a JSON number. -/
def parseExp : Str → Str × Str
  | c :: c2 :: cs =>
    if c = 'e' || c = 'E' then
      if c2 = '+' || c2 = '-' then
        match cs with
        | c3 :: _ =>
          if c3.isDigit then
            let t := digitSpan cs
            (c :: c2 :: t.1, t.2)
          else ([], c :: c2 :: cs)
        | [] => ([], c :: c2 :: cs)
      else if c2.isDigit then
        let t := digitSpan (c2 :: cs)
        (c :: t.1, t.2)
      else ([], c :: c2 :: cs)
    else ([], c :: c2 :: cs)
  | s => ([], s)

/-- A JSON number lexeme (kept raw), and the rest of the input. -/
def parseNumber (s : Str) : Option (Str × Str) :=
  match s with
  | '-' :: cs =>
    (parseIntDigits cs).map fun p =>
      let f := parseFrac p.2
      let e := parseExp f.2
      ('-' :: p.1 ++ f.1 ++ e.1, e.2)
  | _ =>
    (parseIntDigits s).map fun p =>
      let f := parseFrac p.2
      let e := parseExp f.2
      (p.1 ++ f.1 ++ e.1, e.2)

/-- Strip a literal keyword prefix. -/
def stripLit (lit s : Str) : Option Str :=
  if lit.isPrefixOf s then some (s.drop lit.length) else none

def trueLit : Str := "true".toList
def falseLit : Str := "false".toList
def nullLit : Str := "null".toList
def nanLit : Str := "NaN".toList
def infLit : Str := "Infinity".toList
def negInfLit : Str := "-Infinity".toList

/-- Keyword helper for `parseStep`. -/
def tryLit (lit : Str) (j : Json) (s : Str) : Option (Json × Str) :=
  (stripLit lit s).map fun r => (j, r)

/-- What the recursive-descent parser is currently reading: a value, the
members of an object (a key expected next), or the elements of an array
(a value expected next).  Accumulators carry the members/elements read so
far. -/
inductive PJob where
  | value : PJob
  | members : List (Str × Json) → PJob
  | elems : List Json → PJob

/-- One fused recursive-descent JSON parser (fuel-indexed so that it is
structurally recursive; `jsonLoads` supplies ample fuel).  Input positions
are always whitespace-skipped before entry. -/
def parseStep : Nat → PJob → Str → Option (Json × Str)
  | 0, _, _ => none
  | Nat.succ fuel, PJob.value, s =>
    match s with
    | [] => none
    | c :: cs =>
      if c = '"' then
        (parseJStringAux cs).map fun p => (Json.str p.1, p.2)
      else if c = '{' then
        match skipJsonWs cs with
        | [] => none
        | c2 :: cs2 =>
          if c2 = '}' then some (Json.obj [], cs2)
          else parseStep fuel (PJob.members []) (c2 :: cs2)
      else if c = '[' then
        match skipJsonWs cs with
        | [] => none
        | c2 :: cs2 =>
          if c2 = ']' then some (Json.arr [], cs2)
          else parseStep fuel (PJob.elems []) (c2 :: cs2)
      else
        tryLit trueLit (Json.bool true) s <|>
        tryLit falseLit (Json.bool false) s <|>
        tryLit nullLit Json.null s <|>
        tryLit nanLit (Json.num nanLit) s <|>
        tryLit infLit (Json.num infLit) s <|>
        tryLit negInfLit (Json.num negInfLit) s <|>
        (parseNumber s).map fun p => (Json.num p.1, p.2)
  | Nat.succ fuel, PJob.members acc, s =>
    match s with
    | [] => none
    | c :: cs =>
      if c = '"' then
        match parseJStringAux cs with
        | none => none
        | some (k, r1) =>
          match skipJsonWs r1 with
          | [] => none
          | c2 :: r2 =>
            if c2 = ':' then
              match parseStep fuel PJob.value (skipJsonWs r2) with
              | none => none
              | some (v, r3) =>
                let acc2 := insertMember acc k v
                match skipJsonWs r3 with
                | [] => none
                | c3 :: r4 =>
                  if c3 = ',' then parseStep fuel (PJob.members acc2) (skipJsonWs r4)
                  else if c3 = '}' then some (Json.obj acc2, r4)
                  else none
            else none
      else none
  | Nat.succ fuel, PJob.elems acc, s =>
    match parseStep fuel PJob.value s with
    | none => none
    | some (v, r1) =>
      match skipJsonWs r1 with
      | [] => none
      | c2 :: r2 =>
        if c2 = ',' then parseStep fuel (PJob.elems (acc ++ [v])) (skipJsonWs r2)
        else if c2 = ']' then some (Json.arr (acc ++ [v]), r2)
        else none

/-- Model of Python `json.loads` on a `str`: parse one JSON value and require
that only whitespace follows.  `none` models a raised
`json.JSONDecodeError`. -/
def jsonLoads (s : Str) : Option Json :=
  match parseStep (3 * s.length + 8) PJob.value (skipJsonWs s) with
  | some (j, rest) => if skipJsonWs rest = [] then some j else none
  | none => none
/-- Concatenation of a list of text chunks (used to state the long literal
texts line by line). -/
def joinAll : List Str → Str
  | [] => []
  | c :: cs => c ++ joinAll cs

/-- The lines of the triple-quoted schema text returned by
`DatabaseSchema.get_schema_context` (each with its newline). -/
def schemaLines : List Str :=
  ["\n".toList,
   "        ETHEREUM BLOCKCHAIN DATABASE SCHEMA (goteth_mainnet)\n".toList,
   "        \n".toList,
   "        You are analyzing Ethereum Proof-of-Stake consensus layer data. Key tables:\n".toList,
   "        \n".toList,
   "        1. t_validator_last_status (1.98M rows) - Current validator status\n".toList,
   "           - f_val_idx: Validator index (unique identifier)\n".toList,
   "           - f_epoch: Current epoch number\n".toList,
   "           - f_balance_eth: Validator balance in ETH\n".toList,
   "           - f_effective_balance: Effective balance for consensus (in wei)\n".toList,
   "           - f_status: Status code (1=active, 0=inactive)\n".toList,
   "           - f_slashed: Boolean indicating if validator was slashed\n".toList,
   "           \n".toList,
   "        2. t_block_metrics (11.96M rows) - Block production data\n".toList,
   "           - f_slot: Slot number (12-second intervals)\n".toList,
   "           - f_epoch: Epoch number (32 slots = 1 epoch)\n".toList,
   "           - f_proposer_index: Validator who proposed the block\n".toList,
   "           - f_proposed: Boolean indicating if block was actually proposed\n".toList,
   "           - f_attestations: Number of attestations in block\n".toList,
   "           \n".toList,
   "        3. t_pool_summary (65.6M rows) - Staking pool performance\n".toList,
   "           - f_pool_name: Name of staking pool\n".toList,
   "           - f_epoch: Epoch number\n".toList,
   "           - aggregated_rewards: Total rewards for pool in epoch\n".toList,
   "           - aggregated_effective_balance: Total effective balance\n".toList,
   "           \n".toList,
   "        4. t_epoch_metrics_summary (375K rows) - Network-wide metrics\n".toList,
   "           - f_epoch: Epoch number\n".toList,
   "           - f_num_vals: Number of active validators\n".toList,
   "           - f_total_balance_eth: Total ETH staked\n".toList,
   "           - f_num_att: Number of attestations\n".toList,
   "           \n".toList,
   "        5. t_block_rewards (7.6M rows) - Economic data\n".toList,
   "           - f_slot: Slot number\n".toList,
   "           - f_reward_fees: Transaction fees earned\n".toList,
   "           - f_burnt_fees: EIP-1559 burnt fees\n".toList,
   "           - f_cl_manual_reward: Consensus layer rewards\n".toList,
   "           \n".toList,
   "        QUERY GUIDELINES:\n".toList,
   "        - Always use LIMIT clauses (max 100 rows for display)\n".toList,
   "        - Use aggregate functions (COUNT, SUM, AVG) for large datasets\n".toList,
   "        - Field names are prefixed with f_ (e.g., f_val_idx, f_epoch)\n".toList,
   "        - Epochs are ~6.4 minutes, slots are 12 seconds\n".toList,
   "        - Current epoch is around 375000+\n".toList,
   "        - Balance fields may be in wei (divide by 1e18 for ETH) or ETH\n".toList,
   "        ".toList]

/-- The schema context text: its lines joined. -/
def schemaContext : Str := joinAll schemaLines

/-- `_create_system_prompt` text before the schema interpolation. -/
def promptHead : Str :=
  "You are a blockchain analytics assistant with access to Ethereum consensus layer data.\n\n".toList

/-- `_create_system_prompt` text between the schema and the tool list. -/
def promptMid : Str :=
  "\n\nAVAILABLE MCP TOOLS:\n".toList

/-- The lines of the `_create_system_prompt` text after the tool list
(literal braces as escapes). -/
def tailLines : List Str :=
  ["\n".toList,
   "\n".toList,
   "        INSTRUCTIONS:\n".toList,
   "1. When users ask questions about blockchain data, analyze what information you need\n".toList,
   "2. Use the appropriate MCP tools to query the database\n".toList,
   "3. For SQL queries, generate ClickHouse-compatible SQL with proper LIMIT clauses\n".toList,
   "4. Always explain your findings in clear, user-friendly language\n".toList,
   "5. If you need to make multiple queries, do them step by step\n".toList,
   "\n".toList,
   "TOOL USAGE FORMAT:\n".toList,
   "When you need to use a tool, respond with:\n".toList,
   "TOOL_CALL: \x7b\n".toList,
   "    \"tool_name\": \"tool_name_here\",\n".toList,
   "    \"arguments\": \x7b\"arg1\": \"value1\", \"arg2\": \"value2\"\x7d\n".toList,
   "\x7d\n".toList,
   "\n".toList,
   "IMPORTANT TOOL SIGNATURES:\n".toList,
   "- list_databases(): No parameters needed\n".toList,
   "- list_tables(database): Requires database name (e.g., \"goteth_mainnet\")\n".toList,
   "- run_select_query(query): Only requires SQL query string, database connection is already established\n".toList,
   "\n".toList,
   "After receiving tool results, provide a comprehensive answer based on the data.\n".toList]

/-- The prompt text after the tool list: its lines joined. -/
def promptTail : Str := joinAll tailLines

/-! ## The tool-call extractor (`_extract_tool_call`) -/

/-- The literal marker token `"TOOL_CALL:"`. -/
def markerStr : Str := "TOOL_CALL:".toList

/-- The brace-depth scan of `_extract_tool_call`: walk the text keeping a
counter (+1 on `\x7b`, -1 on `\x7d`); `some (i + 1)` at the first character
where the counter returns to zero (Python sets `end_index = i + 1` and
breaks), `none` when the loop finishes without that (Python leaves
`end_index = 0`). -/
def braceScanAux : Str → Int → Nat → Option Nat
  | [], _, _ => none
  | c :: cs, depth, i =>
    if c = '{' then braceScanAux cs (depth + 1) (i + 1)
    else if c = '}' then
      if depth - 1 = 0 then some (i + 1) else braceScanAux cs (depth - 1) (i + 1)
    else braceScanAux cs depth (i + 1)

/-- The scan from position 0 with counter 0. -/
def braceScanEnd (s : Str) : Option Nat := braceScanAux s 0 0

/-- The candidate substring `_extract_tool_call` submits to `json.loads`:
everything after the first `"TOOL_CALL:"`, stripped; when it starts with a
`\x7b`, the slice `tool_call_json[:end_index]` ending where the brace scan
first returns to zero (the empty slice when it never does).  `none` when the
marker is absent or the stripped remainder does not start with `\x7b`
(those paths return `None` without calling the parser). -/
def extractCandidate (s : Str) : Option Str :=
  match findSubstr markerStr s with
  | none => none
  | some idx =>
    let rest := pyStrip (s.drop (idx + markerStr.length))
    match rest with
    | [] => none
    | c :: _ =>
      if c = '{' then some (rest.take ((braceScanEnd rest).getD 0))
      else none

/-- `_extract_tool_call`: parse the candidate slice, converting a parse
failure (`json.JSONDecodeError`, the only exception the `try` can see here)
into `None`.  Total: every failure path yields `none`. -/
def extractToolCall (s : Str) : Option Json :=
  (extractCandidate s).bind jsonLoads

/-! ## The prompt builder (`_create_system_prompt`) -/

/-- Newline separator of the `"\n".join(...)` call. -/
def nlStr : Str := "\n".toList

/-- One line `- name: description` of the tool list. -/
def toolLine (t : ToolDesc) : Str :=
  '-' :: ' ' :: t.name ++ ':' :: ' ' :: t.description

/-- The `tools_description` block: the per-tool lines joined by newlines
(the empty text for an empty tool list, as `"\n".join([])`). -/
def toolsDescription (tools : List ToolDesc) : Str :=
  List.intercalate nlStr (tools.map toolLine)

/-- `_create_system_prompt`: the f-string with the schema context and the
tool list interpolated. -/
def createSystemPrompt (tools : List ToolDesc) : Str :=
  promptHead ++ schemaContext ++ promptMid ++ toolsDescription tools ++ promptTail

/-- Whether `sub` occurs in `s` (Python `in`), as a Boolean: some suffix of
`s` starts with `sub`. -/
def containsSub (sub : Str) : Str → Bool
  | [] => sub.isEmpty
  | c :: cs => sub.isPrefixOf (c :: cs) || containsSub sub cs

/-- The window obligations under which a chunk list is `sub`-free: no
occurrence starting in any chunk (each chunk is checked together with the
first `sub.length` characters that follow it), and `sub` is not empty. -/
def windowsOk (sub : Str) : List Str → Prop
  | [] => sub.isEmpty = false
  | c :: cs => containsSub sub (c ++ (joinAll cs).take sub.length) = false ∧ windowsOk sub cs

/-! ## The tool executor (`execute_mcp_tool`)

`session.call_tool` is the remote tool backend; one call's behaviour is a
`CallToolBehavior`: either the invocation raised an exception, or it
returned a result object with an `isError` flag and a `content` value.
Python's `str()` of an arbitrary content object is not computable from its
structure, so each shape carries the text `str()` would produce where the
code uses it. -/

/-- One entry of a list-shaped `result.content`: an object with a `.text`
attribute, one with `.data` (and no `.text`), or neither (`other` carries
its `str()` text). -/
inductive ContentItem where
  | text : Str → ContentItem
  | data : Str → ContentItem
  | other : Str → ContentItem

/-- The shape of `result.content`: a Python list, a non-list object with the
given truthiness, or a missing/`None` attribute (falsy). -/
inductive ContentShape where
  | pyList : List ContentItem → ContentShape
  | scalar : Bool → ContentShape
  | absent : ContentShape

/-- `result.content` together with the text `str(result.content)` yields. -/
structure ContentVal where
  shape : ContentShape
  reprS : Str

/-- Python truthiness of `result.content` (an empty list and `None` are
falsy). -/
def contentTruthy (c : ContentVal) : Bool :=
  match c.shape with
  | ContentShape.pyList items => !items.isEmpty
  | ContentShape.scalar t => t
  | ContentShape.absent => false

/-- One `session.call_tool` outcome. -/
inductive CallToolBehavior where
  | raised : Str → CallToolBehavior
  | result : Bool → ContentVal → CallToolBehavior

def toolFailedHead : Str := "Tool execution failed: ".toList
def mcpFailedHead : Str := "MCP tool execution failed: ".toList
def noContentMsg : Str := "Tool executed successfully but returned no content".toList

/-- `execute_mcp_tool`: `.error` models a raised `MCPToolError` (the only
exception the function lets escape — the inner `raise MCPToolError` on
`isError` and any exception of `call_tool` are both caught by the blanket
`except` and re-raised wrapped), `.ok` the returned content text. -/
def executeMcpTool (b : CallToolBehavior) : Except Str Str :=
  match b with
  | CallToolBehavior.raised m => Except.error (mcpFailedHead ++ m)
  | CallToolBehavior.result isErr content =>
    if isErr then Except.error (mcpFailedHead ++ toolFailedHead ++ content.reprS)
    else if contentTruthy content then
      match content.shape with
      | ContentShape.pyList (item :: _) =>
        match item with
        | ContentItem.text s => Except.ok s
        | ContentItem.data s => Except.ok s
        | ContentItem.other s => Except.ok s
      | _ => Except.ok content.reprS
    else Except.ok noContentMsg

/-! ## The turn orchestrator (`process_conversation_turn`) -/

/-- The only exception `process_conversation_turn` can let escape: the
`KeyError` of `tool_call["tool_name"]` / `tool_call["arguments"]` on a
parsed object missing that key (evaluated inside the `try`, but a
`KeyError` is not an `MCPToolError`, so the `except` does not stop it). -/
inductive TurnExc where
  | keyError : Str → TurnExc
deriving DecidableEq

/-- Which statement of `process_conversation_turn` ended the turn:
the plain-response return, the tool-failure return, the propagated
`KeyError`, or falling off the 3-iteration loop. -/
inductive ExitKind where
  | answered : ExitKind
  | toolFailed : ExitKind
  | excRaised : ExitKind
  | exhausted : ExitKind
deriving DecidableEq

/-- Result of one `process_conversation_turn` run: the returned string or
escaped exception, the conversation history after the call (the Python list
is mutated in place), and how many completion-backend and tool calls were
issued. -/
structure TurnResult where
  outcome : Except TurnExc Str
  history : List Msg
  llmCalls : Nat
  toolCalls : Nat
  exit : ExitKind

def toolNameKey : Str := "tool_name".toList
def argumentsKey : Str := "arguments".toList
def toolResultHead : Str := "Tool result: ".toList
def llmErrHead : Str := "Error getting LLM response: ".toList
def dbErrHead : Str := "I encountered an error while querying the database: ".toList
def continueMsg : Str :=
  "Please provide a comprehensive answer based on the tool results above.".toList
def exhaustMsg : Str :=
  "I\x27m having trouble completing this request after multiple attempts.".toList

/-- The message list `get_llm_response` sends: the system prompt, the
conversation history, then the current user message. -/
def mkLlmMessages (tools : List ToolDesc) (hist : List Msg) (userMessage : Str) : List Msg :=
  ⟨Role.system, createSystemPrompt tools⟩ :: hist ++ [⟨Role.user, userMessage⟩]

/-- One completion-backend call either returns a completion text or raises;
`get_llm_response` converts the latter into the literal error text, so its
result is always a string. -/
def llmRespStr : Except Str Str → Str
  | Except.ok content => content
  | Except.error e => llmErrHead ++ e

/-- `get_llm_response` for one call, given that call's backend behaviour. -/
def getLlmResponse (callB : List Msg → Except Str Str) (tools : List ToolDesc)
    (userMessage : Str) (hist : List Msg) : Str :=
  llmRespStr (callB (mkLlmMessages tools hist userMessage))

/-- The `for iteration in range(max_iterations)` loop of
`process_conversation_turn`.  `groq i` / `tool i` give the behaviour of the
i-th completion-backend / tool-backend call still to come (the recursive
call shifts both streams).  The tool oracle also receives the `tool_name`
and `arguments` values passed to `execute_mcp_tool`. -/
def turnLoop (tools : List ToolDesc) (groq : Nat → List Msg → Except Str Str)
    (tool : Nat → Json → Json → CallToolBehavior) :
    Nat → Str → List Msg → TurnResult
  | 0, _, hist => ⟨Except.ok exhaustMsg, hist, 0, 0, ExitKind.exhausted⟩
  | Nat.succ fuel, currentMessage, hist =>
    let resp := getLlmResponse (groq 0) tools currentMessage hist
    match extractToolCall resp with
    | none => ⟨Except.ok resp, hist, 1, 0, ExitKind.answered⟩
    | some call =>
      match objGet call toolNameKey with
      | none => ⟨Except.error (TurnExc.keyError toolNameKey), hist, 1, 0, ExitKind.excRaised⟩
      | some tn =>
        match objGet call argumentsKey with
        | none => ⟨Except.error (TurnExc.keyError argumentsKey), hist, 1, 0, ExitKind.excRaised⟩
        | some args =>
          match executeMcpTool (tool 0 tn args) with
          | Except.error e =>
            ⟨Except.ok (dbErrHead ++ e), hist, 1, 1, ExitKind.toolFailed⟩
          | Except.ok toolResult =>
            let hist2 := hist ++
              [⟨Role.assistant, resp⟩, ⟨Role.user, toolResultHead ++ toolResult⟩]
            let r := turnLoop tools (fun i => groq (i + 1)) (fun i => tool (i + 1))
              fuel continueMsg hist2
            ⟨r.outcome, r.history, r.llmCalls + 1, r.toolCalls + 1, r.exit⟩

/-- `process_conversation_turn`: the loop with `max_iterations = 3`,
starting from the user's message. -/
def processConversationTurn (tools : List ToolDesc)
    (groq : Nat → List Msg → Except Str Str)
    (tool : Nat → Json → Json → CallToolBehavior)
    (userMessage : Str) (hist : List Msg) : TurnResult :=
  turnLoop tools groq tool 3 userMessage hist

/-! ## One body of the chat loop (`chat_loop`) -/

/-- The truncation after a completed turn: keep the transcript, or its last
20 entries when it holds more (`conversation_history[-20:]`). -/
def truncateHistory (h : List Msg) : List Msg :=
  if h.length > 20 then h.drop (h.length - 20) else h

/-- One processed user turn of `chat_loop`: run
`process_conversation_turn`, append the user input and the assistant
response, truncate.  `.error` models the turn's exception propagating out of
the loop (crashing it); the response is then never appended. -/
def chatStep (tools : List ToolDesc) (groq : Nat → List Msg → Except Str Str)
    (tool : Nat → Json → Json → CallToolBehavior)
    (userInput : Str) (hist : List Msg) : Except TurnExc (Str × List Msg) :=
  let r := processConversationTurn tools groq tool userInput hist
  match r.outcome with
  | Except.error e => Except.error e
  | Except.ok resp =>
    Except.ok (resp, truncateHistory
      (r.history ++ [⟨Role.user, userInput⟩, ⟨Role.assistant, resp⟩]))

/-! ## Shared structural facts about the loop -/

/-- The two transcript entries appended by one successful tool round:
the assistant's tool-call text and the synthetic tool-result user
message. -/
def pairsFlat : List (Str × Str) → List Msg
  | [] => []
  | p :: ps =>
    ⟨Role.assistant, p.1⟩ :: ⟨Role.user, toolResultHead ++ p.2⟩ :: pairsFlat ps

/-- Every tool call the completion backend can make the orchestrator
extract carries both the `tool_name` and the `arguments` key. -/
def goodCalls (tools : List ToolDesc) (groq : Nat → List Msg → Except Str Str) : Prop :=
  ∀ i m h j, extractToolCall (getLlmResponse (groq i) tools m h) = some j →
    (objGet j toolNameKey).isSome ∧ (objGet j argumentsKey).isSome

/-- Every completion-backend response contains a valid tool call (with both
keys present). -/
def alwaysToolCall (tools : List ToolDesc) (groq : Nat → List Msg → Except Str Str) : Prop :=
  ∀ i m h, ∃ j, extractToolCall (getLlmResponse (groq i) tools m h) = some j ∧
    (objGet j toolNameKey).isSome ∧ (objGet j argumentsKey).isSome

/-- Every tool invocation succeeds. -/
def alwaysToolOk (tool : Nat → Json → Json → CallToolBehavior) : Prop :=
  ∀ i tn args, ∃ s, executeMcpTool (tool i tn args) = Except.ok s

/-! ## Concrete fixtures for witnesses and counterexamples -/

def hiStr : Str := "hi".toList
def doneStr : Str := "Done.".toList
def fortyTwoStr : Str := "42".toList
def listDatabasesStr : Str := "list_databases".toList

/-- The spec's example tool-call response text. -/
def tcText : Str :=
  "TOOL_CALL: \x7b\"tool_name\": \"list_databases\", \"arguments\": \x7b\x7d\x7d".toList

/-- The JSON object part of `tcText`. -/
def tcObjStr : Str :=
  "\x7b\"tool_name\": \"list_databases\", \"arguments\": \x7b\x7d\x7d".toList

/-- The parsed form of `tcObjStr`. -/
def tcJson : Json :=
  Json.obj [(toolNameKey, Json.str listDatabasesStr), (argumentsKey, Json.obj [])]

/-- A content value with one `.text` item. -/
def okContent : ContentVal :=
  ⟨ContentShape.pyList [ContentItem.text fortyTwoStr], ("[...]".toList)⟩

/-- A content value for failing calls (`str(result.content)` is `[boom]`). -/
def boomContent : ContentVal :=
  ⟨ContentShape.pyList [], ("[boom]".toList)⟩

/-- A backend requesting one tool call and then answering `Done.`. -/
def groqOne : Nat → List Msg → Except Str Str := fun i _ =>
  if i = 0 then Except.ok tcText else Except.ok doneStr

/-- A backend requesting a tool call on every response. -/
def groqAlways : Nat → List Msg → Except Str Str := fun _ _ => Except.ok tcText

/-- A backend answering plainly (no marker). -/
def groqPlain : Nat → List Msg → Except Str Str := fun _ _ => Except.ok doneStr

/-- A backend whose tool-call JSON lacks the `tool_name` key. -/
def groqNoName : Nat → List Msg → Except Str Str := fun _ _ =>
  Except.ok ("TOOL_CALL: \x7b\"arguments\": \x7b\x7d\x7d".toList)

/-- A tool backend that always succeeds with `okContent`. -/
def toolOk : Nat → Json → Json → CallToolBehavior := fun _ _ _ =>
  CallToolBehavior.result false okContent

/-- A tool backend that always reports `isError = true`. -/
def toolErr : Nat → Json → Json → CallToolBehavior := fun _ _ _ =>
  CallToolBehavior.result true boomContent

/-- A syntactically valid JSON object whose string values contain brace
characters; its raw brace sequence is balanced. -/
def c2ObjStr : Str :=
  "\x7b\"tool_name\": \"\x7d\", \"arguments\": \x7b\x7d, \"x\": \"\x7b\"\x7d".toList

def c2Input : Str := ("TOOL_CALL: ".toList) ++ c2ObjStr

def xKey : Str := "x".toList

/-- The parsed form of `c2ObjStr`. -/
def c2Json : Json :=
  Json.obj [(toolNameKey, Json.str ['\x7d']), (argumentsKey, Json.obj []),
    (xKey, Json.str ['\x7b'])]

def noToolsStr : Str := "no tools available".toList

/-- The degenerate block the empty tool list actually produces: the header,
an empty tool list, then the INSTRUCTIONS block. -/
def availEmptyStr : Str := "\n\nAVAILABLE MCP TOOLS:\n\n\n        INSTRUCTIONS:".toList

/-- The whole system prompt for an empty tool list, as its chunk list. -/
def promptChunks : List Str :=
  [promptHead] ++ schemaLines ++ [promptMid] ++ tailLines

def c7Input : Str := "TOOL_CALL: \x7babc".toList
def c7Rest : Str := "\x7babc".toList

/-- The spec's unbalanced example (missing final brace). -/
def c8Input : Str :=
  "TOOL_CALL: \x7b\"tool_name\": \"x\", \"arguments\": \x7b\x7d".toList

/-- Its stripped remainder after the marker. -/
def c8Rest : Str :=
  "\x7b\"tool_name\": \"x\", \"arguments\": \x7b\x7d".toList

/-- The transcript after one turn of `chat_loop` in which one tool call
succeeded (`groqOne`/`toolOk`) and the next response was a plain answer. -/
def c9Hist : List Msg :=
  [Msg.mk Role.assistant tcText,
   Msg.mk Role.user (toolResultHead ++ fortyTwoStr),
   Msg.mk Role.user hiStr,
   Msg.mk Role.assistant doneStr]

/-! ## Shared structural facts as theorems -/

/-- Structural description of one `turnLoop` run: the history grows by one
(assistant tool-call, tool-result) pair per successful tool round, the call
counters count rounds plus the terminal calls, both are bounded by the fuel,
each exit kind fixes the outcome's shape, well-keyed calls exclude the
`KeyError` exit, and a backend that always requests another (successful)
tool call drives the loop to exhaustion. -/
theorem turnLoop_spec (tools : List ToolDesc) :
    ∀ (fuel : Nat) (groq : Nat → List Msg → Except Str Str)
      (tool : Nat → Json → Json → CallToolBehavior) (msg : Str) (hist : List Msg),
    ∃ ps : List (Str × Str),
      (turnLoop tools groq tool fuel msg hist).history = hist ++ pairsFlat ps ∧
      (turnLoop tools groq tool fuel msg hist).llmCalls =
        ps.length + (if (turnLoop tools groq tool fuel msg hist).exit = ExitKind.exhausted then 0 else 1) ∧
      (turnLoop tools groq tool fuel msg hist).toolCalls =
        ps.length + (if (turnLoop tools groq tool fuel msg hist).exit = ExitKind.toolFailed then 1 else 0) ∧
      (turnLoop tools groq tool fuel msg hist).llmCalls ≤ fuel ∧
      (turnLoop tools groq tool fuel msg hist).toolCalls ≤ fuel ∧
      ((turnLoop tools groq tool fuel msg hist).exit = ExitKind.exhausted →
        (turnLoop tools groq tool fuel msg hist).outcome = Except.ok exhaustMsg) ∧
      ((turnLoop tools groq tool fuel msg hist).exit = ExitKind.toolFailed →
        ∃ e, (turnLoop tools groq tool fuel msg hist).outcome = Except.ok (dbErrHead ++ e)) ∧
      ((turnLoop tools groq tool fuel msg hist).exit ≠ ExitKind.excRaised →
        ∃ s, (turnLoop tools groq tool fuel msg hist).outcome = Except.ok s) ∧
      (goodCalls tools groq → (turnLoop tools groq tool fuel msg hist).exit ≠ ExitKind.excRaised) ∧
      (alwaysToolCall tools groq → alwaysToolOk tool →
        (turnLoop tools groq tool fuel msg hist).exit = ExitKind.exhausted ∧
        (turnLoop tools groq tool fuel msg hist).llmCalls = fuel ∧
        (turnLoop tools groq tool fuel msg hist).toolCalls = fuel) := by
  intro fuel
  induction fuel with
  | zero =>
    intro groq tool msg hist
    refine ⟨[], ?_⟩
    simp [turnLoop, pairsFlat]
  | succ n ih =>
    intro groq tool msg hist
    cases hx : extractToolCall (getLlmResponse (groq 0) tools msg hist) with
    | none =>
      refine ⟨[], ?_⟩
      simp only [turnLoop, hx, pairsFlat]
      refine ⟨by simp, by simp, by simp, by omega, by omega, by simp, by simp,
        fun _ => ⟨_, rfl⟩, fun _ => by simp, fun hc _ => ?_⟩
      obtain ⟨j, hj, -, -⟩ := hc 0 msg hist
      rw [hx] at hj
      exact absurd hj (by simp)
    | some call =>
      cases htn : objGet call toolNameKey with
      | none =>
        refine ⟨[], ?_⟩
        simp only [turnLoop, hx, htn, pairsFlat]
        refine ⟨by simp, by simp, by simp, by omega, by omega, by simp, by simp,
          fun hne => absurd rfl hne, fun hc => ?_, fun hc _ => ?_⟩
        · obtain ⟨h1, -⟩ := hc 0 msg hist call hx
          rw [htn] at h1
          exact absurd h1 (by simp)
        · obtain ⟨j, hj, h1, -⟩ := hc 0 msg hist
          rw [hx] at hj
          obtain rfl : call = j := by injection hj
          rw [htn] at h1
          exact absurd h1 (by simp)
      | some tn =>
        cases hargs : objGet call argumentsKey with
        | none =>
          refine ⟨[], ?_⟩
          simp only [turnLoop, hx, htn, hargs, pairsFlat]
          refine ⟨by simp, by simp, by simp, by omega, by omega, by simp, by simp,
            fun hne => absurd rfl hne, fun hc => ?_, fun hc _ => ?_⟩
          · obtain ⟨-, h2⟩ := hc 0 msg hist call hx
            rw [hargs] at h2
            exact absurd h2 (by simp)
          · obtain ⟨j, hj, -, h2⟩ := hc 0 msg hist
            rw [hx] at hj
            obtain rfl : call = j := by injection hj
            rw [hargs] at h2
            exact absurd h2 (by simp)
        | some args =>
          cases he : executeMcpTool (tool 0 tn args) with
          | error e =>
            refine ⟨[], ?_⟩
            simp only [turnLoop, hx, htn, hargs, he, pairsFlat]
            refine ⟨by simp, by simp, by simp, by omega, by omega, by simp,
              fun _ => ⟨e, rfl⟩, fun _ => ⟨_, rfl⟩, fun _ => by simp, fun _ hok => ?_⟩
            obtain ⟨s, hs⟩ := hok 0 tn args
            rw [he] at hs
            exact absurd hs (by simp)
          | ok toolResult =>
            have hstep : turnLoop tools groq tool (n + 1) msg hist =
                { outcome := (turnLoop tools (fun i => groq (i + 1)) (fun i => tool (i + 1)) n
                    continueMsg (hist ++ [⟨Role.assistant, getLlmResponse (groq 0) tools msg hist⟩,
                      ⟨Role.user, toolResultHead ++ toolResult⟩])).outcome,
                  history := (turnLoop tools (fun i => groq (i + 1)) (fun i => tool (i + 1)) n
                    continueMsg (hist ++ [⟨Role.assistant, getLlmResponse (groq 0) tools msg hist⟩,
                      ⟨Role.user, toolResultHead ++ toolResult⟩])).history,
                  llmCalls := (turnLoop tools (fun i => groq (i + 1)) (fun i => tool (i + 1)) n
                    continueMsg (hist ++ [⟨Role.assistant, getLlmResponse (groq 0) tools msg hist⟩,
                      ⟨Role.user, toolResultHead ++ toolResult⟩])).llmCalls + 1,
                  toolCalls := (turnLoop tools (fun i => groq (i + 1)) (fun i => tool (i + 1)) n
                    continueMsg (hist ++ [⟨Role.assistant, getLlmResponse (groq 0) tools msg hist⟩,
                      ⟨Role.user, toolResultHead ++ toolResult⟩])).toolCalls + 1,
                  exit := (turnLoop tools (fun i => groq (i + 1)) (fun i => tool (i + 1)) n
                    continueMsg (hist ++ [⟨Role.assistant, getLlmResponse (groq 0) tools msg hist⟩,
                      ⟨Role.user, toolResultHead ++ toolResult⟩])).exit } := by
              simp only [turnLoop, hx, htn, hargs, he]
            obtain ⟨ps, hA, hB, hC, hD, hE, hF, hG, hH, hI, hJ⟩ :=
              ih (fun i => groq (i + 1)) (fun i => tool (i + 1)) continueMsg
                (hist ++ [⟨Role.assistant, getLlmResponse (groq 0) tools msg hist⟩,
                  ⟨Role.user, toolResultHead ++ toolResult⟩])
            refine ⟨(getLlmResponse (groq 0) tools msg hist, toolResult) :: ps, ?_⟩
            rw [hstep]
            refine ⟨?_, ?_, ?_, ?_, ?_, ?_, ?_, ?_, ?_, ?_⟩
            · simpa [pairsFlat] using hA
            · simp only []
              rw [hB]
              split <;> simp
            · simp only []
              rw [hC]
              split <;> simp
            · simp only []
              omega
            · simp only []
              omega
            · simpa using hF
            · simpa using hG
            · simpa using hH
            · intro hc
              exact hI fun i m h j hj => hc (i + 1) m h j hj
            · intro hc hok
              obtain ⟨h1, h2, h3⟩ :=
                hJ (fun i m h => hc (i + 1) m h) (fun i tn2 args2 => hok (i + 1) tn2 args2)
              refine ⟨h1, ?_, ?_⟩ <;> simp [h2, h3]

/-! ## Claim C1 -/

/-- Claim C1, counterexample: with a completion backend whose response embeds
the valid JSON object `\x7b"arguments": \x7b\x7d\x7d` (no `tool_name` key),
`process_conversation_turn` does not return a string: the `KeyError` of
`tool_call["tool_name"]` escapes to the caller. -/
theorem c1_counterexample :
    (processConversationTurn [] groqNoName toolOk hiStr []).outcome =
      Except.error (TurnExc.keyError toolNameKey) := rfl

/-- Claim C1, amended: for every conversation history, user message and
behaviour of the two backends, `process_conversation_turn` returns a string
(never an exception) PROVIDED every tool-call object the extractor yields
carries both the `tool_name` and the `arguments` key; an object missing one
of them instead makes an uncaught `KeyError` escape (see the
counterexample). -/
theorem c1_no_uncaught_exception (tools : List ToolDesc)
    (groq : Nat → List Msg → Except Str Str)
    (tool : Nat → Json → Json → CallToolBehavior)
    (userMessage : Str) (hist : List Msg)
    (hkeys : goodCalls tools groq) :
    ∃ s, (processConversationTurn tools groq tool userMessage hist).outcome =
      Except.ok s := by
  obtain ⟨ps, -, -, -, -, -, -, -, hH, hI, -⟩ :=
    turnLoop_spec tools 3 groq tool userMessage hist
  exact hH (hI hkeys)

/-- Claim C1, witness: the amended theorem applied to a plainly answering
backend. -/
theorem c1_witness :
    ∃ s, (processConversationTurn [] groqPlain toolOk hiStr []).outcome =
      Except.ok s :=
  c1_no_uncaught_exception [] groqPlain toolOk hiStr []
    (fun i m h j hj => by
      rw [show extractToolCall (getLlmResponse (groqPlain i) [] m h) = none from rfl] at hj
      exact Option.noConfusion hj)

/-! ## Claim C2 -/

/-- Claim C2, counterexample: `c2ObjStr` is a syntactically valid JSON object
with balanced braces (equal brace counts, and it parses), its string values
contain `\x7b`/`\x7d` characters, yet the extractor on marker + object
returns no call at all (the depth scan closes at the `\x7d` inside the first
string value, slicing an unparsable prefix). -/
theorem c2_counterexample :
    jsonLoads c2ObjStr = some c2Json ∧
    c2ObjStr.count '\x7b' = c2ObjStr.count '\x7d' ∧
    extractToolCall c2Input = none :=
  ⟨rfl, by decide, rfl⟩

/-- Claim C2, amended: the extractor returns exactly the parsed object,
regardless of trailing text, for every marker-carrying input whose stripped
remainder starts with the object and whose raw brace-depth scan first
returns to zero exactly at the object's end (in particular whenever the
object's string values contain no unmatched brace characters); an object
with an unmatched brace inside a string value is missed (see the
counterexample). -/
theorem c2_extract_valid (s : Str) (idx : Nat) (obj trailing : Str) (j : Json)
    (hfind : findSubstr markerStr s = some idx)
    (hrest : pyStrip (s.drop (idx + markerStr.length)) = obj ++ trailing)
    (hhead : obj.head? = some '\x7b')
    (hscan : braceScanEnd (obj ++ trailing) = some obj.length)
    (hparse : jsonLoads obj = some j) :
    extractToolCall s = some j := by
  obtain ⟨c, obj2, rfl⟩ : ∃ c o, obj = c :: o := by
    cases obj with
    | nil => simp at hhead
    | cons c o => exact ⟨c, o, rfl⟩
  obtain rfl : c = '{' := by simpa using hhead
  have hscan2 : braceScanEnd ('{' :: (obj2 ++ trailing)) = some (obj2.length + 1) := by
    simpa using hscan
  have hcand : extractCandidate s = some ('{' :: obj2) := by
    simp only [extractCandidate, hfind, hrest, List.cons_append]
    rw [if_pos trivial, hscan2]
    simp [List.take_left]
  unfold extractToolCall
  rw [hcand]
  exact hparse

/-- Claim C2, witness: the amended theorem at the spec's example input with
trailing text after the object. -/
theorem c2_witness :
    extractToolCall (tcText ++ (" trailing".toList)) = some tcJson :=
  c2_extract_valid (tcText ++ (" trailing".toList)) 0 tcObjStr (" trailing".toList)
    tcJson rfl (by decide) rfl (by decide) rfl

/-! ## Claim C3 -/

/-- Claim C3: per user turn, `process_conversation_turn` issues at most 3
completion-backend calls and at most 3 tool calls; and when every response
carries a further valid tool call and every tool call succeeds, the
3-iteration ceiling is exhausted, exactly 3 of each are issued and the fixed
exhaustion message is returned. -/
theorem c3_bounded_turn (tools : List ToolDesc)
    (groq : Nat → List Msg → Except Str Str)
    (tool : Nat → Json → Json → CallToolBehavior)
    (userMessage : Str) (hist : List Msg) :
    (processConversationTurn tools groq tool userMessage hist).llmCalls ≤ 3 ∧
    (processConversationTurn tools groq tool userMessage hist).toolCalls ≤ 3 ∧
    (alwaysToolCall tools groq → alwaysToolOk tool →
      (processConversationTurn tools groq tool userMessage hist).outcome =
        Except.ok exhaustMsg ∧
      (processConversationTurn tools groq tool userMessage hist).llmCalls = 3 ∧
      (processConversationTurn tools groq tool userMessage hist).toolCalls = 3) := by
  simp only [processConversationTurn]
  obtain ⟨ps, -, -, -, hD, hE, hF, -, -, -, hJ⟩ :=
    turnLoop_spec tools 3 groq tool userMessage hist
  refine ⟨hD, hE, fun hc hok => ?_⟩
  obtain ⟨h1, h2, h3⟩ := hJ hc hok
  exact ⟨hF h1, h2, h3⟩

/-- Claim C3, witness: a backend that always requests `tcText`'s tool call,
with an always-succeeding tool backend, exhausts the ceiling: 3 LLM calls,
3 tool calls, the fixed message. -/
theorem c3_witness :
    (processConversationTurn [] groqAlways toolOk hiStr []).outcome =
      Except.ok exhaustMsg ∧
    (processConversationTurn [] groqAlways toolOk hiStr []).llmCalls = 3 ∧
    (processConversationTurn [] groqAlways toolOk hiStr []).toolCalls = 3 :=
  (c3_bounded_turn [] groqAlways toolOk hiStr []).2.2
    (fun _ _ _ => ⟨tcJson, rfl, rfl, rfl⟩)
    (fun _ _ _ => ⟨fortyTwoStr, rfl⟩)

/-! ## Claim C4 -/

/-- Claim C4: if the tool backend reports `isError = true` on every call and
the first LLM response carries a valid tool call, the turn ends on the first
iteration with exactly one completion call and one tool call, no history
entries added, and a user-facing error message naming the failure. -/
theorem c4_tool_error_first_iteration (tools : List ToolDesc)
    (groq : Nat → List Msg → Except Str Str)
    (tool : Nat → Json → Json → CallToolBehavior)
    (userMessage : Str) (hist : List Msg) (j : Json)
    (hresp : extractToolCall (getLlmResponse (groq 0) tools userMessage hist) = some j)
    (htn : (objGet j toolNameKey).isSome = true)
    (hargs : (objGet j argumentsKey).isSome = true)
    (herr : ∀ i tn args, ∃ c, tool i tn args = CallToolBehavior.result true c) :
    (processConversationTurn tools groq tool userMessage hist).exit =
      ExitKind.toolFailed ∧
    (processConversationTurn tools groq tool userMessage hist).llmCalls = 1 ∧
    (processConversationTurn tools groq tool userMessage hist).toolCalls = 1 ∧
    (processConversationTurn tools groq tool userMessage hist).history = hist ∧
    ∃ c : ContentVal, (processConversationTurn tools groq tool userMessage hist).outcome =
      Except.ok (dbErrHead ++ (mcpFailedHead ++ toolFailedHead ++ c.reprS)) := by
  obtain ⟨tn, htn2⟩ := Option.isSome_iff_exists.mp htn
  obtain ⟨args, hargs2⟩ := Option.isSome_iff_exists.mp hargs
  obtain ⟨c, hc⟩ := herr 0 tn args
  have hexec : executeMcpTool (tool 0 tn args) =
      Except.error (mcpFailedHead ++ toolFailedHead ++ c.reprS) := by
    rw [hc]; rfl
  have key : processConversationTurn tools groq tool userMessage hist =
      turnLoop tools groq tool (Nat.succ 2) userMessage hist := rfl
  rw [key]
  simp only [turnLoop, hresp, htn2, hargs2, hexec]
  exact ⟨trivial, trivial, trivial, trivial, c, rfl⟩

/-- Claim C4, witness: the theorem at the always-failing tool backend. -/
theorem c4_witness :
    (processConversationTurn [] groqAlways toolErr hiStr []).exit =
      ExitKind.toolFailed ∧
    (processConversationTurn [] groqAlways toolErr hiStr []).llmCalls = 1 ∧
    (processConversationTurn [] groqAlways toolErr hiStr []).toolCalls = 1 ∧
    (processConversationTurn [] groqAlways toolErr hiStr []).history = [] ∧
    ∃ c : ContentVal, (processConversationTurn [] groqAlways toolErr hiStr []).outcome =
      Except.ok (dbErrHead ++ (mcpFailedHead ++ toolFailedHead ++ c.reprS)) :=
  c4_tool_error_first_iteration [] groqAlways toolErr hiStr [] tcJson rfl rfl rfl
    (fun _ _ _ => ⟨boomContent, rfl⟩)

/-! ## Claim C5 -/

/-- Claim C5: after every completed user turn of the chat loop (whatever the
preceding history), the retained transcript holds at most 20 entries, and it
is exactly the suffix of most recent entries, in their original order, of
the full transcript the turn produced. -/
theorem c5_truncated_window (tools : List ToolDesc)
    (groq : Nat → List Msg → Except Str Str)
    (tool : Nat → Json → Json → CallToolBehavior)
    (userInput : Str) (hist : List Msg) (resp : Str) (h2 : List Msg)
    (hstep : chatStep tools groq tool userInput hist = Except.ok (resp, h2)) :
    h2.length ≤ 20 ∧
    h2.length = min ((processConversationTurn tools groq tool userInput hist).history ++
      [Msg.mk Role.user userInput, Msg.mk Role.assistant resp]).length 20 ∧
    h2 <:+ ((processConversationTurn tools groq tool userInput hist).history ++
      [Msg.mk Role.user userInput, Msg.mk Role.assistant resp]) := by
  simp only [chatStep] at hstep
  rcases ho : (processConversationTurn tools groq tool userInput hist).outcome with e | s
  · rw [ho] at hstep
    simp at hstep
  · rw [ho] at hstep
    simp only [Except.ok.injEq, Prod.mk.injEq] at hstep
    obtain ⟨rfl, hh⟩ := hstep
    rw [← hh]
    unfold truncateHistory
    by_cases hlen : ((processConversationTurn tools groq tool userInput hist).history ++
        [Msg.mk Role.user userInput, Msg.mk Role.assistant s]).length > 20
    · rw [if_pos hlen]
      refine ⟨?_, ?_, List.drop_suffix _ _⟩
      · rw [List.length_drop]; omega
      · rw [List.length_drop]; omega
    · rw [if_neg hlen]
      exact ⟨by omega, by omega, List.suffix_refl _⟩

/-- Claim C5, witness: a one-shot plain turn keeps the two new entries. -/
theorem c5_witness :
    ([Msg.mk Role.user hiStr, Msg.mk Role.assistant doneStr] : List Msg).length ≤ 20 ∧
    ([Msg.mk Role.user hiStr, Msg.mk Role.assistant doneStr] : List Msg).length =
      min ((processConversationTurn [] groqPlain toolOk hiStr []).history ++
        [Msg.mk Role.user hiStr, Msg.mk Role.assistant doneStr]).length 20 ∧
    ([Msg.mk Role.user hiStr, Msg.mk Role.assistant doneStr] : List Msg) <:+
      ((processConversationTurn [] groqPlain toolOk hiStr []).history ++
        [Msg.mk Role.user hiStr, Msg.mk Role.assistant doneStr]) :=
  c5_truncated_window [] groqPlain toolOk hiStr [] doneStr
    [Msg.mk Role.user hiStr, Msg.mk Role.assistant doneStr] rfl

/-! ## Claim C6 -/

/-- `isPrefixOf` only reads the first `sub.length` characters. -/
theorem isPrefixOf_take (sub : Str) : ∀ s : Str,
    sub.isPrefixOf (s.take sub.length) = sub.isPrefixOf s := by
  induction sub with
  | nil => intro s; cases s <;> simp [List.isPrefixOf]
  | cons c cs ih =>
    intro s
    cases s with
    | nil => simp
    | cons d ds => simp [List.isPrefixOf, ih]

/-- A text built from `a` and `b` is `sub`-free when `b` is and no
occurrence starts inside `a` (checked on `a` plus a `sub.length`-wide
window into `b`). -/
theorem containsSub_append_false (sub : Str) : ∀ a b : Str,
    containsSub sub (a ++ b.take sub.length) = false →
    containsSub sub b = false →
    containsSub sub (a ++ b) = false := by
  intro a
  induction a with
  | nil => intro b _ hb; simpa using hb
  | cons c a2 ih =>
    intro b ha hb
    simp only [List.cons_append, List.append_eq, containsSub,
      Bool.or_eq_false_iff] at ha ⊢
    refine ⟨?_, ih b ha.2 hb⟩
    have h3 : (c :: (a2 ++ b)).take sub.length =
        (c :: (a2 ++ b.take sub.length)).take sub.length := by
      rcases hn : sub.length with _ | m
      · simp
      · simp only [List.take_succ_cons, List.take_append_eq_append_take,
          List.take_take, List.cons.injEq, true_and]
        have hmin : min (m - a2.length) (m + 1) = m - a2.length := by omega
        rw [hmin]
    rw [← isPrefixOf_take sub (c :: (a2 ++ b)), h3,
      isPrefixOf_take sub (c :: (a2 ++ b.take sub.length))]
    exact ha.1

/-- `joinAll` distributes over list append. -/
theorem joinAll_append : ∀ xs ys : List Str,
    joinAll (xs ++ ys) = joinAll xs ++ joinAll ys := by
  intro xs ys
  induction xs with
  | nil => simp [joinAll]
  | cons c cs ih => simp [joinAll, ih]

/-- A chunked text is `sub`-free when every window is. -/
theorem containsSub_joinAll_false (sub : Str) : ∀ chunks : List Str,
    windowsOk sub chunks → containsSub sub (joinAll chunks) = false := by
  intro chunks
  induction chunks with
  | nil =>
    intro h
    simp only [windowsOk] at h
    simpa [joinAll, containsSub] using h
  | cons c cs ih =>
    intro h
    simp only [windowsOk] at h
    simp only [joinAll]
    exact containsSub_append_false sub c (joinAll cs) h.1 (ih h.2)

set_option maxRecDepth 4000 in
/-- The empty-tool-list prompt is its chunks joined. -/
theorem createSystemPrompt_empty_eq :
    createSystemPrompt [] = joinAll promptChunks := by
  show promptHead ++ schemaContext ++ promptMid ++ toolsDescription [] ++ promptTail = _
  rw [show toolsDescription [] = ([] : Str) from rfl, List.append_nil]
  simp only [promptChunks, joinAll_append, joinAll, schemaContext, promptTail,
    List.append_assoc, List.nil_append, List.append_nil]

set_option maxRecDepth 8000 in
/-- Claim C6, counterexample: the system prompt built from an empty tool
list nowhere contains the text `no tools available`. -/
theorem c6_counterexample :
    containsSub noToolsStr (createSystemPrompt []) = false := by
  rw [createSystemPrompt_empty_eq]
  refine containsSub_joinAll_false noToolsStr promptChunks ?_
  simp only [promptChunks, windowsOk, List.cons_append, List.append_nil]
  exact ⟨rfl, rfl, rfl, rfl, rfl, rfl, rfl, rfl, rfl, rfl, rfl, rfl, rfl, rfl, rfl, rfl, rfl, rfl, rfl, rfl, rfl, rfl, rfl, rfl, rfl, rfl, rfl, rfl, rfl, rfl, rfl, rfl, rfl, rfl, rfl, rfl, rfl, rfl, rfl, rfl, rfl, rfl, rfl, rfl, rfl, rfl, rfl, rfl, rfl, rfl, rfl, rfl, rfl, rfl, rfl, rfl, rfl, rfl, rfl, rfl, rfl, rfl, rfl, rfl, rfl, rfl, rfl, rfl, rfl, rfl, rfl⟩

set_option maxRecDepth 4000 in
/-- Claim C6, amended: for an empty tool list the prompt builder does not
fail; the tools description degrades to the empty text, so the prompt is the
fixed template with an empty AVAILABLE MCP TOOLS section (the header is
followed directly by the INSTRUCTIONS block, and no `no tools available`
text is produced — see the counterexample). -/
theorem c6_empty_tools_prompt :
    toolsDescription [] = [] ∧
    createSystemPrompt [] = promptHead ++ schemaContext ++ promptMid ++ promptTail ∧
    (promptMid ++ promptTail).take 46 = availEmptyStr := by
  refine ⟨rfl, ?_, rfl⟩
  show promptHead ++ schemaContext ++ promptMid ++ toolsDescription [] ++ promptTail = _
  rw [show toolsDescription [] = ([] : Str) from rfl, List.append_nil]

/-! ## Claim C7 -/

/-- Claim C7, counterexample: with marker present, remainder starting with
`\x7b` and a depth counter that never returns to zero, the slice submitted
to the JSON parser is the EMPTY string, not the whole remainder `\x7babc`
(Python's `end_index` keeps its initial value 0). -/
theorem c7_counterexample :
    extractCandidate c7Input = some [] ∧
    pyStrip (c7Input.drop markerStr.length) = c7Rest ∧
    c7Rest ≠ [] :=
  ⟨rfl, rfl, by decide⟩

/-- Claim C7, amended: when the marker is present, the stripped remainder
starts with `\x7b` and the brace-depth counter never returns to zero, the
slice submitted to the parser is the empty string (`end_index` stays 0), so
parsing fails and the extractor returns no call. -/
theorem c7_unbalanced_slice_empty (s : Str) (idx : Nat) (rest : Str)
    (hfind : findSubstr markerStr s = some idx)
    (hrest : pyStrip (s.drop (idx + markerStr.length)) = rest)
    (hhead : rest.head? = some '\x7b')
    (hscan : braceScanEnd rest = none) :
    extractCandidate s = some [] ∧ extractToolCall s = none := by
  obtain ⟨c, rest2, rfl⟩ : ∃ c r, rest = c :: r := by
    cases rest with
    | nil => simp at hhead
    | cons c r => exact ⟨c, r, rfl⟩
  obtain rfl : c = '{' := by simpa using hhead
  have hcand : extractCandidate s = some [] := by
    simp only [extractCandidate, hfind, hrest]
    rw [if_pos trivial, hscan]
    simp
  refine ⟨hcand, ?_⟩
  unfold extractToolCall
  rw [hcand]
  rfl

/-- Claim C7, witness: the amended theorem at `TOOL_CALL: \x7babc`. -/
theorem c7_witness :
    extractCandidate c7Input = some [] ∧ extractToolCall c7Input = none :=
  c7_unbalanced_slice_empty c7Input 0 c7Rest rfl rfl rfl rfl

/-! ## Claim C8 -/

/-- Claim C8: a marker followed by unbalanced braces (depth never returning
to zero) yields no call, a marker whose sliced candidate fails JSON parsing
yields no call, and in particular the spec's missing-final-brace example
yields no call; the embedded extractor is a total function, so no exception
reaches the caller on any of these paths. -/
theorem c8_invalid_json_none :
    (∀ s idx rest, findSubstr markerStr s = some idx →
      pyStrip (s.drop (idx + markerStr.length)) = rest →
      rest.head? = some '\x7b' →
      ((braceScanEnd rest = none → extractToolCall s = none) ∧
       (∀ n, braceScanEnd rest = some n → jsonLoads (rest.take n) = none →
         extractToolCall s = none))) ∧
    extractToolCall c8Input = none := by
  refine ⟨?_, rfl⟩
  intro s idx rest hfind hrest hhead
  obtain ⟨c, rest2, rfl⟩ : ∃ c r, rest = c :: r := by
    cases rest with
    | nil => simp at hhead
    | cons c r => exact ⟨c, r, rfl⟩
  obtain rfl : c = '{' := by simpa using hhead
  constructor
  · intro hscan
    have hcand : extractCandidate s = some [] := by
      simp only [extractCandidate, hfind, hrest]
      rw [if_pos trivial, hscan]
      simp
    unfold extractToolCall
    rw [hcand]
    rfl
  · intro n hscan hparse
    have hcand : extractCandidate s = some (('{' :: rest2).take n) := by
      simp only [extractCandidate, hfind, hrest]
      rw [if_pos trivial, hscan]
      rfl
    unfold extractToolCall
    rw [hcand]
    simpa using hparse

/-- Claim C8, witness: the unbalanced branch applied to the spec's example
(whose depth scan indeed never returns to zero). -/
theorem c8_witness :
    braceScanEnd c8Rest = none ∧ extractToolCall c8Input = none :=
  ⟨rfl, (c8_invalid_json_none.1 c8Input 0 c8Rest rfl rfl rfl).1 rfl⟩

/-! ## Claim C9 -/

/-- Claim C9, counterexample: after a turn with one successful tool
invocation, the entry holding the user's input (`hi`, at index 2) appears
AFTER the assistant tool-call message (index 0) and the synthetic tool
result (index 1) generated in response to it, because `chat_loop` appends
the user input only once the turn has completed. -/
theorem c9_counterexample :
    chatStep [] groqOne toolOk hiStr [] = Except.ok (doneStr, c9Hist) ∧
    c9Hist.count (Msg.mk Role.user hiStr) = 1 ∧
    c9Hist.count (Msg.mk Role.assistant tcText) = 1 ∧
    c9Hist.count (Msg.mk Role.user (toolResultHead ++ fortyTwoStr)) = 1 ∧
    ¬(c9Hist.indexOf (Msg.mk Role.user hiStr) <
        c9Hist.indexOf (Msg.mk Role.assistant tcText) ∧
      c9Hist.indexOf (Msg.mk Role.user hiStr) <
        c9Hist.indexOf (Msg.mk Role.user (toolResultHead ++ fortyTwoStr))) :=
  ⟨rfl, by decide, by decide, by decide, by decide⟩

/-- Claim C9, amended: the transcript after a completed turn is the prior
history, then one (assistant tool-call, synthetic tool-result) pair per
successful tool round in order, then the user's input entry, then the
assistant's final answer — i.e. the user's input entry is appended after the
turn's tool entries, not before them (then the 20-entry truncation is
applied). -/
theorem c9_tool_entries_precede_user_entry (tools : List ToolDesc)
    (groq : Nat → List Msg → Except Str Str)
    (tool : Nat → Json → Json → CallToolBehavior)
    (userInput : Str) (hist : List Msg) (resp : Str) (h2 : List Msg)
    (hstep : chatStep tools groq tool userInput hist = Except.ok (resp, h2)) :
    ∃ ps, h2 = truncateHistory (hist ++ pairsFlat ps ++
      [Msg.mk Role.user userInput, Msg.mk Role.assistant resp]) := by
  simp only [chatStep] at hstep
  rcases ho : (processConversationTurn tools groq tool userInput hist).outcome with e | s
  · rw [ho] at hstep
    simp at hstep
  · rw [ho] at hstep
    simp only [Except.ok.injEq, Prod.mk.injEq] at hstep
    obtain ⟨rfl, hh⟩ := hstep
    obtain ⟨ps, hA, -, -, -, -, -, -, -, -, -⟩ :=
      turnLoop_spec tools 3 groq tool userInput hist
    refine ⟨ps, ?_⟩
    rw [← hh]
    have hA2 : (processConversationTurn tools groq tool userInput hist).history =
        hist ++ pairsFlat ps := hA
    rw [hA2]

/-- Claim C9, witness: the amended theorem at the concrete one-tool-round
run that also serves as counterexample. -/
theorem c9_witness :
    ∃ ps, c9Hist = truncateHistory ([] ++ pairsFlat ps ++
      [Msg.mk Role.user hiStr, Msg.mk Role.assistant doneStr]) :=
  c9_tool_entries_precede_user_entry [] groqOne toolOk hiStr [] doneStr c9Hist rfl

/-! ## Claim C10 -/

/-- Claim C10: whenever `execute_mcp_tool` raises `MCPToolError` in some
iteration, the turn returns the database-error message immediately, the
transcript holds exactly the prior history plus the pairs of the EARLIER
successful rounds (the failing round adds nothing), and the failing round's
completion and tool calls are the last ones counted. -/
theorem c10_failed_tool_adds_nothing (tools : List ToolDesc)
    (groq : Nat → List Msg → Except Str Str)
    (tool : Nat → Json → Json → CallToolBehavior)
    (userMessage : Str) (hist : List Msg)
    (hfail : (processConversationTurn tools groq tool userMessage hist).exit =
      ExitKind.toolFailed) :
    ∃ ps e,
      (processConversationTurn tools groq tool userMessage hist).outcome =
        Except.ok (dbErrHead ++ e) ∧
      (processConversationTurn tools groq tool userMessage hist).history =
        hist ++ pairsFlat ps ∧
      (processConversationTurn tools groq tool userMessage hist).llmCalls =
        ps.length + 1 ∧
      (processConversationTurn tools groq tool userMessage hist).toolCalls =
        ps.length + 1 := by
  simp only [processConversationTurn] at hfail ⊢
  obtain ⟨ps, hA, hB, hC, -, -, -, hG, -, -, -⟩ :=
    turnLoop_spec tools 3 groq tool userMessage hist
  obtain ⟨e, he⟩ := hG hfail
  refine ⟨ps, e, he, hA, ?_, ?_⟩
  · rw [hB, hfail]
    simp
  · rw [hC, hfail]
    simp

/-- Claim C10, witness: the theorem at the always-failing tool backend
(where the first round already fails: no pairs, one call each). -/
theorem c10_witness :
    ∃ ps e,
      (processConversationTurn [] groqAlways toolErr hiStr []).outcome =
        Except.ok (dbErrHead ++ e) ∧
      (processConversationTurn [] groqAlways toolErr hiStr []).history =
        [] ++ pairsFlat ps ∧
      (processConversationTurn [] groqAlways toolErr hiStr []).llmCalls =
        ps.length + 1 ∧
      (processConversationTurn [] groqAlways toolErr hiStr []).toolCalls =
        ps.length + 1 :=
  c10_failed_tool_adds_nothing [] groqAlways toolErr hiStr [] rfl
